import Mathlib

/-!
Verification of the chat-moderation stopword bot (single source file,
Python). The definitions below are a shallow embedding of the source:
pure data is embedded directly, the file-backed stopword store becomes an
explicit map from chat identifier to a per-chat file state, the transport
(member-status queries, message deletion) becomes an environment record,
and each handler is a function that also records the trace of gate checks
and store accesses it performed.
-/

namespace StopwordBot

/-- Model of a JSON document as written/read by the store: the source
serialises the record as a one-field object keyed by the word "stopwords"
holding an array of strings. Character-level serialisation is the JSON
library's concern and is treated as an external collaborator, so the file
content is modelled at the level of the document tree. -/
inductive Json where
  | str : String → Json
  | arr : List Json → Json
  | obj : List (String × Json) → Json

/-- The document the source's save writes for a word list:
a JSON dump of the record holding the stopwords key and array. -/
def encodeRecord (ws : List String) : Json :=
  Json.obj [("stopwords", Json.arr (ws.map Json.str))]

/-- Decode a JSON array of strings; any non-string element fails. -/
def decodeStrList : List Json → Option (List String)
  | [] => some []
  | Json.str s :: rest => (decodeStrList rest).map (fun l => s :: l)
  | _ :: _ => none

/-- Field lookup in a JSON object, mirroring the dictionary access the
source performs on the parsed document. -/
def lookupField (key : String) : List (String × Json) → Option Json
  | [] => none
  | (k, v) :: rest => if k = key then some v else lookupField key rest

/-- The list the source's load extracts from a parsed document: the value
at the stopwords key, defaulting to the empty list when the key is absent.
A document that is not an object of the expected shape yields the empty
list (in the dynamic source such a file could only arise outside the
store's own writes; the store itself always writes record-shaped files). -/
def decodeRecord : Json → List String
  | Json.obj fields =>
    match lookupField "stopwords" fields with
    | some (Json.arr xs) => (decodeStrList xs).getD []
    | _ => []
  | _ => []

/-- State of one chat's backing file: absent, readable with a parsed
document, or failing to read (an I/O or parse exception in the source). -/
inductive FileState where
  | missing : FileState
  | record : Json → FileState
  | ioError : FileState

/-- The store: one file state per chat identifier. -/
def Store := Int → FileState

/-- `save_stopwords`: replaces the stored record for the chat in full with
the encoded word list. -/
def save_stopwords (store : Store) (chat_id : Int) (stopwords : List String) : Store :=
  fun c => if c = chat_id then FileState.record (encodeRecord stopwords) else store c

/-- `load_stopwords`: reads the chat's record and extracts the word list;
when the file does not exist it first persists an empty list and returns
the empty list; a read failure is logged in the source and the empty list
is returned with the store untouched (fail-open). Returns the list and the
store after the call. -/
def load_stopwords (store : Store) (chat_id : Int) : List String × Store :=
  match store chat_id with
  | FileState.record j => (decodeRecord j, store)
  | FileState.missing => ([], save_stopwords store chat_id [])
  | FileState.ioError => ([], store)

/-- Result of the transport's delete call, as classified by
`safe_delete_message` in the source. -/
inductive DeleteOutcome where
  | success : DeleteOutcome
  | notFound : DeleteOutcome
  | notDeletable : DeleteOutcome
  | otherError : DeleteOutcome
deriving DecidableEq

/-- The bot's own membership record returned by the transport's
member-status query. -/
structure BotMember where
  status : String
  can_delete_messages : Bool
deriving DecidableEq

/-- Environment: the chat context and the transport's answers for this
event. A `none` membership answer models the query raising an exception. -/
structure Env where
  chatType : String
  userStatus : Option String
  botMember : Option BotMember
  deleteResult : DeleteOutcome

/-- `is_admin`: true in private chats; in groups, true iff the acting
user's queried status is creator or administrator; a failed query yields
false. -/
def is_admin (env : Env) : Bool :=
  if env.chatType = "private" then true
  else
    match env.userStatus with
    | some st => st = "creator" || st = "administrator"
    | none => false

/-- `check_bot_permissions`: the bot must be administrator or creator and
hold the delete-messages flag; a failed query yields false with an error
message. -/
def check_bot_permissions (env : Env) : Bool × String :=
  match env.botMember with
  | some m =>
    if ¬(m.status = "administrator" ∨ m.status = "creator") then
      (false, "bot is not an administrator in this chat")
    else if ¬m.can_delete_messages then
      (false, "bot has no right to delete messages")
    else (true, "bot has all required rights")
  | none => (false, "error while checking bot rights")

/-- `safe_delete_message`: issues the delete and reports success; every
failure class is logged in the source and reported as false. -/
def safe_delete_message (env : Env) : Bool :=
  env.deleteResult = DeleteOutcome.success

/-- Character-list test: `needle` is a leading segment of `hay`
(the empty needle always passes). -/
def startsWith : List Char → List Char → Bool
  | [], _ => true
  | _ :: _, [] => false
  | a :: as, b :: bs => a = b && startsWith as bs

/-- Substring containment of `needle` in `hay`, the semantics of the
source's `in` test on strings. -/
def strContains (needle : List Char) : List Char → Bool
  | [] => startsWith needle []
  | c :: rest => startsWith needle (c :: rest) || strContains needle rest

/-- Lowercasing of the message text (`.lower()` in the source), modelled
per character. -/
def lowerStr (s : String) : String :=
  String.mk (s.data.map Char.toLower)

/-- Maximum size of the dedup cache, the source's module constant. -/
def MAX_CACHE_SIZE : Nat := 1000

/-- The cache key the source builds for a message: chat id and message id
joined by an underscore. -/
def dedupKey (chat_id message_id : Int) : String :=
  toString chat_id ++ "_" ++ toString message_id

/-- The dedup steps of the message handler as one atomic operation on the
`processed_messages` set (modelled as a duplicate-free list): membership
test; on a miss, insert, and when the size now exceeds the maximum, clear
everything and keep only the new key. Returns (wasDuplicate, newCache). -/
def markAndCheck (cache : List String) (key : String) : Bool × List String :=
  if key ∈ cache then (true, cache)
  else
    let c1 := key :: cache
    if c1.length > MAX_CACHE_SIZE then (false, [key]) else (false, c1)

/-- Sequential experiment on the cache: perform the check-and-insert step
for each key in turn, starting from a given cache state. -/
def runInserts (keys : List String) (cache : List String) : List String :=
  keys.foldl (fun c k => (markAndCheck c k).2) cache

/-- Reasons a message terminates without enforcement. -/
inductive SkipReason where
  | alreadyProcessed : SkipReason
  | noMessageText : SkipReason
  | insufficientBotCapability : SkipReason
  | emptyStopwordList : SkipReason
deriving DecidableEq

/-- Terminal classification of one processed message. -/
inductive ModerationOutcome where
  | skipped : SkipReason → ModerationOutcome
  | noMatch : ModerationOutcome
  | deletedOnMatch : String → ModerationOutcome
  | deleteFailed : String → DeleteOutcome → ModerationOutcome
deriving DecidableEq

/-- The word an outcome reports as matched, when any. -/
def matchedWord : Option ModerationOutcome → Option String
  | some (ModerationOutcome.deletedOnMatch w) => some w
  | some (ModerationOutcome.deleteFailed w _) => some w
  | _ => none

/-- Result of processing one inbound event: the outcome (none for a
non-text event, which the source ignores without recording anything), the
cache and store after the call, and the delete requests issued to the
transport. -/
structure ProcResult where
  outcome : Option ModerationOutcome
  cache : List String
  store : Store
  deletes : List (Int × Int)

/-- `check_message`, the decision engine: ignore events without text
(including an empty text, which is falsy in the source); dedup via the
cache; in non-private chats require the bot's capability; load the chat's
stopwords and short-circuit on an empty list; lowercase the text once and
take the first stored word contained in it; on a match issue exactly one
delete request and classify its result. -/
def check_message (env : Env) (store : Store) (cache : List String)
    (chat_id message_id : Int) (text : Option String) : ProcResult :=
  match text with
  | none => ⟨none, cache, store, []⟩
  | some t =>
    if t = "" then ⟨none, cache, store, []⟩
    else
      let mc := markAndCheck cache (dedupKey chat_id message_id)
      if mc.1 then
        ⟨some (ModerationOutcome.skipped SkipReason.alreadyProcessed), mc.2, store, []⟩
      else if env.chatType ≠ "private" ∧ (check_bot_permissions env).1 = false then
        ⟨some (ModerationOutcome.skipped SkipReason.insufficientBotCapability), mc.2, store, []⟩
      else
        let ls := load_stopwords store chat_id
        if ls.1 = [] then
          ⟨some (ModerationOutcome.skipped SkipReason.emptyStopwordList), mc.2, ls.2, []⟩
        else
          match ls.1.find? (fun w => strContains w.data (lowerStr t).data) with
          | some w =>
            if safe_delete_message env then
              ⟨some (ModerationOutcome.deletedOnMatch w), mc.2, ls.2, [(chat_id, message_id)]⟩
            else
              ⟨some (ModerationOutcome.deleteFailed w env.deleteResult), mc.2, ls.2,
                [(chat_id, message_id)]⟩
          | none => ⟨some ModerationOutcome.noMatch, mc.2, ls.2, []⟩

/-- Observable steps a command handler performs: the admin gate, the bot
capability gate, and the store accesses. -/
inductive Event where
  | adminCheckEv : Event
  | capCheckEv : Event
  | loadEv : Event
  | saveEv : Event
deriving DecidableEq

/-- The classes of reply a command handler sends. -/
inductive ReplyKind where
  | notAdmin : ReplyKind
  | capabilityFail : ReplyKind
  | usagePrompt : ReplyKind
  | alreadyPresent : ReplyKind
  | added : ReplyKind
  | notFound : ReplyKind
  | removed : ReplyKind
  | listEmpty : ReplyKind
  | listContents : ReplyKind
deriving DecidableEq

/-- Result of a command handler: its trace of checks and store accesses,
the store after the call, and the replies sent. -/
structure CmdResult where
  events : List Event
  store : Store
  replies : List ReplyKind

/-- Body of `add_word` after its gates: with no argument, prompt for
usage; otherwise lowercase the first argument, load the list, report a
word already present, or append it and persist. -/
def add_word_core (store : Store) (chat_id : Int) (args : List String)
    (evs : List Event) : CmdResult :=
  match args with
  | [] => ⟨evs, store, [ReplyKind.usagePrompt]⟩
  | a :: _ =>
    let word := lowerStr a
    let ls := load_stopwords store chat_id
    if word ∈ ls.1 then ⟨evs ++ [Event.loadEv], ls.2, [ReplyKind.alreadyPresent]⟩
    else
      ⟨evs ++ [Event.loadEv, Event.saveEv],
        save_stopwords ls.2 chat_id (ls.1 ++ [word]), [ReplyKind.added]⟩

/-- `add_word`: admin gate first; in non-private chats the bot capability
gate next; then the body. -/
def add_word (env : Env) (store : Store) (chat_id : Int) (args : List String) : CmdResult :=
  if is_admin env then
    if env.chatType = "private" then
      add_word_core store chat_id args [Event.adminCheckEv]
    else if (check_bot_permissions env).1 then
      add_word_core store chat_id args [Event.adminCheckEv, Event.capCheckEv]
    else ⟨[Event.adminCheckEv, Event.capCheckEv], store, [ReplyKind.capabilityFail]⟩
  else ⟨[Event.adminCheckEv], store, [ReplyKind.notAdmin]⟩

/-- Body of `remove_word` after its gate: with no argument, prompt for
usage; otherwise lowercase the first argument, load the list, report an
absent word, or remove its first occurrence and persist. -/
def remove_word_core (store : Store) (chat_id : Int) (args : List String)
    (evs : List Event) : CmdResult :=
  match args with
  | [] => ⟨evs, store, [ReplyKind.usagePrompt]⟩
  | a :: _ =>
    let word := lowerStr a
    let ls := load_stopwords store chat_id
    if word ∈ ls.1 then
      ⟨evs ++ [Event.loadEv, Event.saveEv],
        save_stopwords ls.2 chat_id (ls.1.erase word), [ReplyKind.removed]⟩
    else ⟨evs ++ [Event.loadEv], ls.2, [ReplyKind.notFound]⟩

/-- `remove_word`: admin gate, then the body. The source performs no bot
capability check in this handler. -/
def remove_word (env : Env) (store : Store) (chat_id : Int) (args : List String) : CmdResult :=
  if is_admin env then remove_word_core store chat_id args [Event.adminCheckEv]
  else ⟨[Event.adminCheckEv], store, [ReplyKind.notAdmin]⟩

/-- `list_words`: loads the chat's list and reports it, or reports that
the list is empty. The source consults no permission gate here. -/
def list_words (store : Store) (chat_id : Int) : CmdResult :=
  let ls := load_stopwords store chat_id
  if ls.1 = [] then ⟨[Event.loadEv], ls.2, [ReplyKind.listEmpty]⟩
  else ⟨[Event.loadEv], ls.2, [ReplyKind.listContents]⟩

/-! ## Helper lemmas -/

/-- Decoding the encoding of a string list as a JSON array succeeds and is
the identity. -/
lemma decodeStrList_map_str (W : List String) :
    decodeStrList (W.map Json.str) = some W := by
  induction W with
  | nil => rfl
  | cons a l ih => simp [decodeStrList, ih]

/-- Decoding an encoded stopword record recovers the word list. -/
lemma decodeRecord_encodeRecord (W : List String) :
    decodeRecord (encodeRecord W) = W := by
  simp [decodeRecord, encodeRecord, lookupField, decodeStrList_map_str]

/-- `List.find?` returns the head of the suffix when everything before it
fails the test and the head passes it. -/
lemma find?_append_cons {α : Type} (p : α → Bool) (pre : List α) (w : α) (post : List α)
    (hpre : ∀ v ∈ pre, p v = false) (hw : p w = true) :
    (pre ++ w :: post).find? p = some w := by
  induction pre with
  | nil => simpa using List.find?_cons_of_pos post hw
  | cons a as ih =>
    have ha : ¬p a := by simp [hpre a (List.mem_cons_self a as)]
    rw [List.cons_append, List.find?_cons_of_neg _ ha]
    exact ih fun v hv => hpre v (List.mem_cons_of_mem a hv)

/-- The check-and-insert step preserves the cache bound. -/
lemma markAndCheck_length_le (cache : List String) (key : String)
    (h : cache.length ≤ MAX_CACHE_SIZE) :
    (markAndCheck cache key).2.length ≤ MAX_CACHE_SIZE := by
  unfold markAndCheck
  by_cases hm : key ∈ cache
  · simpa [hm]
  · rw [if_neg hm]
    dsimp only
    split
    · simp [MAX_CACHE_SIZE]
    · next hgt =>
      simp only [Nat.not_lt] at hgt
      exact hgt

/-- The key just offered to the cache is present afterwards. -/
lemma markAndCheck_mem (cache : List String) (key : String) :
    key ∈ (markAndCheck cache key).2 := by
  unfold markAndCheck
  by_cases hm : key ∈ cache
  · simp [hm]
  · rw [if_neg hm]
    dsimp only
    split <;> simp

/-- Any sequence of check-and-insert steps keeps the cache within the
bound. -/
lemma runInserts_le (keys : List String) :
    ∀ cache : List String, cache.length ≤ MAX_CACHE_SIZE →
      (runInserts keys cache).length ≤ MAX_CACHE_SIZE := by
  induction keys with
  | nil => intro c h; simpa [runInserts] using h
  | cons k ks ih =>
    intro c h
    simpa [runInserts, List.foldl_cons] using
      ih ((markAndCheck c k).2) (markAndCheck_length_le c k h)

/-- A fresh key is never reported as a duplicate. -/
lemma markAndCheck_fst_of_not_mem (cache : List String) (key : String)
    (h : key ∉ cache) : (markAndCheck cache key).1 = false := by
  unfold markAndCheck
  rw [if_neg h]
  dsimp only
  split <;> rfl

/-! ## Claims -/

/-- C7: for every chat identifier and every word list W (including the
empty list), saving W and then loading returns exactly W — same elements,
same order, spelling preserved. -/
theorem save_load_round_trip (store : Store) (chat_id : Int) (W : List String) :
    (load_stopwords (save_stopwords store chat_id W) chat_id).1 = W := by
  simp [load_stopwords, save_stopwords, decodeRecord_encodeRecord]

/-- C8: loading never fails its caller — with no backing file it persists
an empty record and returns the empty list, and on a storage read error it
returns the empty list with the store untouched (fail-open). -/
theorem load_fail_open (store : Store) (chat_id : Int) :
    (store chat_id = FileState.missing →
      (load_stopwords store chat_id).1 = []
      ∧ (load_stopwords store chat_id).2 chat_id = FileState.record (encodeRecord []))
    ∧ (store chat_id = FileState.ioError →
      (load_stopwords store chat_id).1 = []
      ∧ (load_stopwords store chat_id).2 = store) := by
  constructor
  · intro h
    constructor
    · simp [load_stopwords, h]
    · simp [load_stopwords, h, save_stopwords]
  · intro h
    constructor
    · simp [load_stopwords, h]
    · simp [load_stopwords, h]

theorem load_fail_open_wit :
    (load_stopwords (fun _ => FileState.missing) 0).1 = []
    ∧ (load_stopwords (fun _ => FileState.ioError) 0).1 = [] :=
  ⟨((load_fail_open (fun _ => FileState.missing) 0).1 rfl).1,
    ((load_fail_open (fun _ => FileState.ioError) 0).2 rfl).1⟩

/-- C9: only the first argument token is used (lowercased) by the add and
remove handlers; further tokens are ignored, and adding with arguments
foo bar to a fresh chat stores exactly the single word foo. -/
theorem first_token_only :
    (∀ (env : Env) (store : Store) (chat_id : Int) (a : String) (rest : List String),
        add_word env store chat_id (a :: rest) = add_word env store chat_id [a])
    ∧ (∀ (env : Env) (store : Store) (chat_id : Int) (a : String) (rest : List String),
        remove_word env store chat_id (a :: rest) = remove_word env store chat_id [a])
    ∧ (load_stopwords (add_word ⟨"private", none, none, DeleteOutcome.success⟩
        (fun _ => FileState.missing) 1 ["foo", "bar"]).store 1).1 = ["foo"] :=
  ⟨fun _ _ _ _ _ => rfl, fun _ _ _ _ _ => rfl, by decide⟩

/-- C3 counterexample: a concrete ListWords invocation touches the store
(a load event occurs) while performing no admin check at all, refuting the
claim that the admin gate runs before the store is read. -/
theorem list_words_skips_admin_check_cex :
    Event.adminCheckEv ∉ (list_words (fun _ => FileState.missing) 5).events
    ∧ Event.loadEv ∈ (list_words (fun _ => FileState.missing) 5).events := by
  decide

/-- C3 amended: the ListWords handler consults no permission gate; every
invocation performs exactly one store access (the load) and reports the
list to any user. -/
theorem list_words_never_checks_admin (store : Store) (chat_id : Int) :
    (list_words store chat_id).events = [Event.loadEv] := by
  unfold list_words
  dsimp only
  split <;> rfl

/-- C4 counterexample: a concrete RemoveWord invocation in a group chat
where the service capability check would fail (the bot is a plain member)
performs no capability check, and the removal still happens — the stored
list goes from containing the word to empty. -/
theorem remove_word_skips_capability_cex :
    (check_bot_permissions ⟨"group", some "administrator",
        some ⟨"member", false⟩, DeleteOutcome.success⟩).1 = false
    ∧ Event.capCheckEv ∉ (remove_word ⟨"group", some "administrator",
        some ⟨"member", false⟩, DeleteOutcome.success⟩
        (fun c => if c = 1 then FileState.record (encodeRecord ["bad"]) else FileState.missing)
        1 ["bad"]).events
    ∧ (load_stopwords (remove_word ⟨"group", some "administrator",
        some ⟨"member", false⟩, DeleteOutcome.success⟩
        (fun c => if c = 1 then FileState.record (encodeRecord ["bad"]) else FileState.missing)
        1 ["bad"]).store 1).1 = [] := by
  decide

/-- C4 amended: the RemoveWord handler requires only the admin gate; it
performs no service-capability check in any chat context. -/
theorem remove_word_never_checks_capability (env : Env) (store : Store)
    (chat_id : Int) (args : List String) :
    ((remove_word env store chat_id args).events.filter
      (fun e => e == Event.capCheckEv)) = [] := by
  unfold remove_word remove_word_core
  by_cases h : is_admin env
  · rw [if_pos h]
    cases args with
    | nil => rfl
    | cons a rest =>
      dsimp only
      split <;> rfl
  · rw [if_neg h]
    rfl

/-- C2: the dedup cache respects its bound at every observation point —
from any in-bound state, any sequence of check-and-insert steps keeps the
size at most MAX_CACHE_SIZE (when the new key would push the size past the
bound the whole set is reset to that key alone), and immediately after any
step the key just processed is present. -/
theorem cache_bound (cache : List String) (h : cache.length ≤ MAX_CACHE_SIZE) :
    (∀ keys : List String, (runInserts keys cache).length ≤ MAX_CACHE_SIZE)
    ∧ (∀ key : String, key ∈ (markAndCheck cache key).2) :=
  ⟨fun keys => runInserts_le keys cache h, fun key => markAndCheck_mem cache key⟩

theorem cache_bound_wit :
    (runInserts ["1_1", "1_2"] []).length ≤ MAX_CACHE_SIZE
    ∧ "1_3" ∈ (markAndCheck [] "1_3").2 :=
  ⟨(cache_bound [] (by decide)).1 ["1_1", "1_2"],
    (cache_bound [] (by decide)).2 "1_3"⟩

/-- C1: the scan lowercases the text and walks the stored list in order;
the word reported (and the word for which the single delete request is
issued) is the first stored word occurring as a substring of the lowered
text, even when a later word is a longer or additional match. -/
theorem scan_first_match (env : Env) (store : Store) (cache : List String)
    (chat_id message_id : Int) (t : String) (pre : List String) (w : String)
    (post : List String)
    (ht : ¬t = "")
    (hkey : dedupKey chat_id message_id ∉ cache)
    (hcap : env.chatType = "private" ∨ (check_bot_permissions env).1 = true)
    (hload : (load_stopwords store chat_id).1 = pre ++ w :: post)
    (hpre : ∀ v ∈ pre, strContains v.data (lowerStr t).data = false)
    (hw : strContains w.data (lowerStr t).data = true) :
    matchedWord (check_message env store cache chat_id message_id (some t)).outcome = some w
    ∧ (check_message env store cache chat_id message_id (some t)).deletes
        = [(chat_id, message_id)] := by
  have hmc := markAndCheck_fst_of_not_mem cache (dedupKey chat_id message_id) hkey
  have hcond : ¬(env.chatType ≠ "private" ∧ (check_bot_permissions env).1 = false) := by
    rcases hcap with h | h
    · exact fun hc => hc.1 h
    · exact fun hc => by rw [h] at hc; exact Bool.true_eq_false.mp hc.2
  have hfind : (load_stopwords store chat_id).1.find?
      (fun v => strContains v.data (lowerStr t).data) = some w := by
    rw [hload]; exact find?_append_cons _ pre w post hpre hw
  have hne : ¬((load_stopwords store chat_id).1 = []) := by
    rw [hload]; simp
  by_cases hd : safe_delete_message env <;>
    simp [check_message, ht, hmc, hcond, hne, hfind, hd, matchedWord]

theorem scan_first_match_wit :
    matchedWord (check_message ⟨"private", none, none, DeleteOutcome.success⟩
        (fun c => if c = 1 then FileState.record (encodeRecord ["cat", "category"])
          else FileState.missing)
        [] 1 7 (some "this is a CATegory")).outcome = some "cat"
    ∧ (check_message ⟨"private", none, none, DeleteOutcome.success⟩
        (fun c => if c = 1 then FileState.record (encodeRecord ["cat", "category"])
          else FileState.missing)
        [] 1 7 (some "this is a CATegory")).deletes = [(1, 7)] :=
  scan_first_match ⟨"private", none, none, DeleteOutcome.success⟩
    (fun c => if c = 1 then FileState.record (encodeRecord ["cat", "category"])
      else FileState.missing)
    [] 1 7 "this is a CATegory" [] "cat" ["category"]
    (by decide) (by decide) (Or.inl rfl) (by decide)
    (by intro v hv; exact absurd hv (List.not_mem_nil v)) (by decide)

/-- C5: in a group chat where the bot's own role is plain member, any
fresh text message terminates as skipped for insufficient bot capability
and no delete request is issued, whatever the text contains. -/
theorem capability_gating_member (env : Env) (store : Store) (cache : List String)
    (chat_id message_id : Int) (t : String) (b : Bool)
    (hg : env.chatType = "group")
    (hm : env.botMember = some ⟨"member", b⟩)
    (ht : ¬t = "")
    (hkey : dedupKey chat_id message_id ∉ cache) :
    (check_message env store cache chat_id message_id (some t)).outcome
      = some (ModerationOutcome.skipped SkipReason.insufficientBotCapability)
    ∧ (check_message env store cache chat_id message_id (some t)).deletes = [] := by
  have hmc := markAndCheck_fst_of_not_mem cache (dedupKey chat_id message_id) hkey
  have hcapf : (check_bot_permissions env).1 = false := by
    simp [check_bot_permissions, hm]
  have hcond : env.chatType ≠ "private" ∧ (check_bot_permissions env).1 = false := by
    refine ⟨?_, hcapf⟩
    rw [hg]
    decide
  simp [check_message, ht, hmc, hcond]

theorem capability_gating_member_wit :
    (check_message ⟨"group", some "administrator", some ⟨"member", true⟩,
        DeleteOutcome.success⟩
      (fun c => if c = 2 then FileState.record (encodeRecord ["spam"]) else FileState.missing)
      [] 2 9 (some "buy SPAM now")).outcome
      = some (ModerationOutcome.skipped SkipReason.insufficientBotCapability)
    ∧ (check_message ⟨"group", some "administrator", some ⟨"member", true⟩,
        DeleteOutcome.success⟩
      (fun c => if c = 2 then FileState.record (encodeRecord ["spam"]) else FileState.missing)
      [] 2 9 (some "buy SPAM now")).deletes = [] :=
  capability_gating_member ⟨"group", some "administrator", some ⟨"member", true⟩,
      DeleteOutcome.success⟩
    (fun c => if c = 2 then FileState.record (encodeRecord ["spam"]) else FileState.missing)
    [] 2 9 "buy SPAM now" true rfl rfl (by decide) (by decide)

/-- C6: a chat whose stored stopword list is empty never has a delete
request issued for any of its messages, and a fresh text message that
passes the capability gate terminates as skipped for the empty list. -/
theorem empty_list_short_circuit (env : Env) (store : Store) (chat_id : Int)
    (hload : (load_stopwords store chat_id).1 = []) :
    (∀ (cache : List String) (message_id : Int) (text : Option String),
        (check_message env store cache chat_id message_id text).deletes = [])
    ∧ (∀ (cache : List String) (message_id : Int) (t : String),
        ¬t = "" → dedupKey chat_id message_id ∉ cache →
        (env.chatType = "private" ∨ (check_bot_permissions env).1 = true) →
        (check_message env store cache chat_id message_id (some t)).outcome
          = some (ModerationOutcome.skipped SkipReason.emptyStopwordList)) := by
  constructor
  · intro cache message_id text
    cases text with
    | none => rfl
    | some t =>
      by_cases ht : t = ""
      · simp [check_message, ht]
      · by_cases hdup : (markAndCheck cache (dedupKey chat_id message_id)).1 = true
        · simp [check_message, ht, hdup]
        · by_cases hcap : env.chatType ≠ "private" ∧ (check_bot_permissions env).1 = false
          · simp [check_message, ht, hdup, hcap]
          · simp [check_message, ht, hdup, hcap, hload]
  · intro cache message_id t ht hkey hcap
    have hmc := markAndCheck_fst_of_not_mem cache (dedupKey chat_id message_id) hkey
    have hcond : ¬(env.chatType ≠ "private" ∧ (check_bot_permissions env).1 = false) := by
      rcases hcap with h | h
      · exact fun hc => hc.1 h
      · exact fun hc => by rw [h] at hc; exact Bool.true_eq_false.mp hc.2
    simp [check_message, ht, hmc, hcond, hload]

theorem empty_list_short_circuit_wit :
    (check_message ⟨"private", none, none, DeleteOutcome.success⟩
      (fun _ => FileState.record (encodeRecord [])) [] 3 11 (some "anything at all")).outcome
      = some (ModerationOutcome.skipped SkipReason.emptyStopwordList)
    ∧ (check_message ⟨"private", none, none, DeleteOutcome.success⟩
      (fun _ => FileState.record (encodeRecord [])) [] 3 11 (some "anything at all")).deletes
      = [] :=
  ⟨(empty_list_short_circuit ⟨"private", none, none, DeleteOutcome.success⟩
      (fun _ => FileState.record (encodeRecord [])) 3 (by decide)).2
      [] 11 "anything at all" (by decide) (by decide) (Or.inl rfl),
    (empty_list_short_circuit ⟨"private", none, none, DeleteOutcome.success⟩
      (fun _ => FileState.record (encodeRecord [])) 3 (by decide)).1
      [] 11 (some "anything at all")⟩

/-- C10: an AddWord or RemoveWord invocation with no argument tokens that
passes its gates replies with the usage prompt only, and the stopword
store is neither loaded nor written: the store is unchanged and the trace
contains no load or save event. -/
theorem no_args_no_store_touch (env : Env) (store : Store) (chat_id : Int)
    (hA : is_admin env = true)
    (hC : env.chatType = "private" ∨ (check_bot_permissions env).1 = true) :
    ((add_word env store chat_id []).store = store
      ∧ ((add_word env store chat_id []).events.filter
          (fun e => e == Event.loadEv || e == Event.saveEv)) = []
      ∧ (add_word env store chat_id []).replies = [ReplyKind.usagePrompt])
    ∧ ((remove_word env store chat_id []).store = store
      ∧ ((remove_word env store chat_id []).events.filter
          (fun e => e == Event.loadEv || e == Event.saveEv)) = []
      ∧ (remove_word env store chat_id []).replies = [ReplyKind.usagePrompt]) := by
  constructor
  · by_cases hp : env.chatType = "private"
    · simp +decide [add_word, hA, hp, add_word_core]
    · rcases hC with hp' | hcap
      · exact absurd hp' hp
      · simp +decide [add_word, hA, hp, hcap, add_word_core]
  · simp +decide [remove_word, hA, remove_word_core]

theorem no_args_no_store_touch_wit :
    ((add_word ⟨"private", none, none, DeleteOutcome.success⟩
        (fun _ => FileState.missing) 0 []).replies = [ReplyKind.usagePrompt])
    ∧ ((remove_word ⟨"private", none, none, DeleteOutcome.success⟩
        (fun _ => FileState.missing) 0 []).replies = [ReplyKind.usagePrompt]) :=
  ⟨(no_args_no_store_touch ⟨"private", none, none, DeleteOutcome.success⟩
      (fun _ => FileState.missing) 0 (by decide) (Or.inl rfl)).1.2.2,
    (no_args_no_store_touch ⟨"private", none, none, DeleteOutcome.success⟩
      (fun _ => FileState.missing) 0 (by decide) (Or.inl rfl)).2.2.2⟩

end StopwordBot
